import Mathlib

/-!
# Verification of the calendar-mcp server core

Shallow embedding of `src/index.ts` and the bundled date/time utilities
(`parseDateTime`, `formatDateTime`) of the calendar-mcp repository, with
theorems settling the frozen claims about the time-expression resolver and
the tool dispatcher.

Modeling decisions, used consistently below:

* A JavaScript `Date` value is a time value: milliseconds since the epoch,
  or the invalid value (NaN).  We model it as `Option Int`: `some t` is the
  time value `t`, `none` is an invalid date.  Time values are modeled as
  unbounded integers; the engine's finite `±8.64e15` ms clamp is idealized
  away (no claim is about instants near the ends of the representable range).
* The process-local civil time used by `Date`'s field accessors/mutators is
  modeled as a fixed-offset zone (offset 0, no DST): civil fields are
  derived from the time value by plain Gregorian conversion, exactly as the
  ECMAScript specification prescribes for a zero local-time offset.
* Every `new Date()` read inside one handler invocation is modeled as the
  same instant, passed in as the parameter `now`.
* `new Date(string)` for strings matching the strict ISO pattern of the
  source is modeled by `parseISOStrict` (the ECMAScript "Date Time String
  Format" semantics, which yield an invalid date when a field is out of
  range); for all other strings it is the environment's legacy parser,
  which the model takes as an explicit parameter `fb : String → JSDate`.
* String lowercasing/trimming is modeled on ASCII (the claims' inputs are
  ASCII), whitespace being the four standard whitespace characters.
* External collaborators (the Google Calendar client, the zod validators,
  the locale-dependent renderers of `toLocaleString`) are modeled as oracle
  parameters: structures of functions the dispatcher calls.
-/

/-- Milliseconds per civil day. -/
def msPerDay : Int := 86400000

/-- Milliseconds per hour. -/
def msPerHour : Int := 3600000

/-- Milliseconds per minute. -/
def msPerMinute : Int := 60000

/-- Milliseconds per second. -/
def msPerSecond : Int := 1000

/-- A JavaScript `Date` value: a time value in ms since epoch, or invalid (NaN). -/
abbrev JSDate := Option Int

/-- ECMAScript `Day(t)`: the day number containing time value `t`.
`Int` division is Euclidean, which agrees with the spec's floor division
because all divisors here are positive. -/
def jsDay (t : Int) : Int := t / msPerDay

/-- ECMAScript `TimeWithinDay(t)`. -/
def timeWithinDay (t : Int) : Int := t % msPerDay

/-- ECMAScript `WeekDay(t)`: 0 = Sunday … 6 = Saturday. -/
def jsWeekDay (t : Int) : Int := (jsDay t + 4) % 7

/-- ECMAScript `HourFromTime(t)` (fixed-offset model: local = UTC). -/
def jsHours (t : Int) : Int := (t / msPerHour) % 24

/-- ECMAScript `MinFromTime(t)`. -/
def jsMinutes (t : Int) : Int := (t / msPerMinute) % 60

/-- ECMAScript `SecFromTime(t)`. -/
def jsSeconds (t : Int) : Int := (t / msPerSecond) % 60

/-- ECMAScript `msFromTime(t)`. -/
def jsMilliseconds (t : Int) : Int := t % msPerSecond

/-- Gregorian leap-year test (ECMAScript `DaysInYear` definition). -/
def isLeap (y : Int) : Bool := (y % 4 == 0 && y % 100 != 0) || y % 400 == 0

/-- Number of days in year `y`. -/
def daysInYearN (y : Int) : Nat := if isLeap y then 366 else 365

/-- Number of days in month `m` (1–12) of year `y`. -/
def daysInMonthN (y : Int) (m : Nat) : Nat :=
  match m with
  | 1 => 31
  | 2 => if isLeap y then 29 else 28
  | 3 => 31
  | 4 => 30
  | 5 => 31
  | 6 => 30
  | 7 => 31
  | 8 => 31
  | 9 => 30
  | 10 => 31
  | 11 => 30
  | _ => 31

/-- Days in year `y` strictly before month `m` (1-based). -/
def daysBeforeMonth (y : Int) : Nat → Nat
  | 0 => 0
  | 1 => 0
  | m + 1 => daysBeforeMonth y m + daysInMonthN y m

/-- ECMAScript `DayFromYear(y)`: day number of January 1 of year `y`. -/
def dayFromYear (y : Int) : Int :=
  365 * (y - 1970) + (y - 1969) / 4 - (y - 1901) / 100 + (y - 1601) / 400

/-- ECMAScript `MakeDay` restricted to a month already in 1–12 (the only way
the embedded code builds days): day number of day `d` (arbitrary, may be out
of range) counted in month `m` of year `y`. -/
def makeDay (y : Int) (m : Nat) (d : Int) : Int :=
  dayFromYear y + (daysBeforeMonth y m : Int) + (d - 1)

/-- Find the year containing day-of-era offset `n ≥ 0` counted from
January 1 of year `y`; returns the year and the day-of-year. -/
def yearUp (y : Int) (n : Nat) : Int × Nat :=
  if _h : n < daysInYearN y then (y, n)
  else yearUp (y + 1) (n - daysInYearN y)
termination_by n
decreasing_by
  have h365 : 365 ≤ daysInYearN y := by unfold daysInYearN; split <;> omega
  omega

/-- Find the year containing negative day offset `n` counted from
January 1 of year `y`, walking backwards. -/
def yearDown (y : Int) (n : Int) : Int × Nat :=
  if _h : 0 ≤ n + (daysInYearN (y - 1) : Int) then (y - 1, (n + (daysInYearN (y - 1) : Int)).toNat)
  else yearDown (y - 1) (n + (daysInYearN (y - 1) : Int))
termination_by (-n).toNat
decreasing_by
  have h365 : 365 ≤ daysInYearN (y - 1) := by unfold daysInYearN; split <;> omega
  simp only [Int.not_le] at _h
  omega

/-- Year and day-of-year of day number `n` (day 0 = 1970-01-01). -/
def civilDoy (n : Int) : Int × Nat :=
  if 0 ≤ n then yearUp 1970 n.toNat else yearDown 1970 n

/-- Month (1-based) and day-of-month (1-based) of day-of-year `doy` in year
`y`, walking the months from `m`. -/
def monthDay (y : Int) (m : Nat) (doy : Nat) : Nat × Nat :=
  if 12 ≤ m then (m, doy + 1)
  else if doy < daysInMonthN y m then (m, doy + 1)
  else monthDay y (m + 1) (doy - daysInMonthN y m)
termination_by 12 - m

/-- Civil (year, month, day-of-month) of day number `n`. -/
def civilFromDays (n : Int) : Int × Nat × Nat :=
  ((civilDoy n).1, (monthDay (civilDoy n).1 1 (civilDoy n).2).1,
    (monthDay (civilDoy n).1 1 (civilDoy n).2).2)

/-- ECMAScript `DateFromTime(t)` (fixed-offset model): the day-of-month of `t`. -/
def getDateOf (t : Int) : Int := ((civilFromDays (jsDay t)).2.2 : Int)

/-- Model of `Date.prototype.setDate(d)` in the fixed-offset setting: keep the year and
month of `t`, set the day-of-month to `d` (out-of-range values roll over),
keep the time within the day. -/
def setDateOf (t : Int) (d : Int) : Int :=
  makeDay (civilFromDays (jsDay t)).1 (civilFromDays (jsDay t)).2.1 d * msPerDay + timeWithinDay t

/-- Model of `Date.prototype.setHours(h, m, s, ms)` (fixed offset). -/
def setHours4 (t h m s ms : Int) : Int :=
  jsDay t * msPerDay + (h * msPerHour + m * msPerMinute + s * msPerSecond + ms)

/-- Model of `Date.prototype.setHours(h)` (single argument): minutes, seconds and
milliseconds are carried over from `t`. -/
def setHours1 (t h : Int) : Int :=
  jsDay t * msPerDay +
    (h * msPerHour + jsMinutes t * msPerMinute + jsSeconds t * msPerSecond + jsMilliseconds t)

/-- ASCII whitespace test: model of the JS regex class and of `String.prototype.trim`
for the inputs at hand. -/
def isWsChar (c : Char) : Bool := c == ' ' || c == '\t' || c == '\n' || c == '\r'

/-- Trim whitespace from both ends of a character list. -/
def trimL (l : List Char) : List Char :=
  ((l.dropWhile isWsChar).reverse.dropWhile isWsChar).reverse

/-- Model of `String.prototype.toLowerCase()` on ASCII text. -/
def jsToLower (l : List Char) : List Char := l.map Char.toLower

/-- Character list of `dateTimeString.toLowerCase().trim()`. -/
def lowerTrim (s : String) : List Char := trimL (jsToLower s.data)

/-- Numeric value of a decimal digit character. -/
def digitVal (c : Char) : Nat := c.toNat - 48

/-- Value of a decimal digit string (model of `parseInt(·, 10)` on an
all-digit match; numeric overflow of the engine's floats is idealized away). -/
def digitsVal (l : List Char) : Nat := l.foldl (fun a c => a * 10 + digitVal c) 0

/-- Time part `(THH:MM(:SS)?)?` of the strict ISO pattern: hour, minute,
second when the remainder of the string matches, `none` otherwise. -/
def isoExtractTime : List Char → Option (Nat × Nat × Nat)
  | [] => some (0, 0, 0)
  | 'T' :: h1 :: h2 :: ':' :: n1 :: n2 :: rest =>
    if h1.isDigit && h2.isDigit && n1.isDigit && n2.isDigit then
      match rest with
      | [] => some (digitVal h1 * 10 + digitVal h2, digitVal n1 * 10 + digitVal n2, 0)
      | ':' :: s1 :: s2 :: [] =>
        if s1.isDigit && s2.isDigit then
          some (digitVal h1 * 10 + digitVal h2, digitVal n1 * 10 + digitVal n2,
            digitVal s1 * 10 + digitVal s2)
        else none
      | _ => none
    else none
  | _ => none

/-- Field extraction for the source's `ISO_DATE_REGEX`
matching `YYYY-MM-DD`, then optionally `T`, two digits, `:`, two digits,
then optionally `:` and two digits: `some` exactly on matching
strings. -/
def isoExtract : List Char → Option (Nat × Nat × Nat × Nat × Nat × Nat)
  | y1 :: y2 :: y3 :: y4 :: '-' :: m1 :: m2 :: '-' :: d1 :: d2 :: rest =>
    if y1.isDigit && y2.isDigit && y3.isDigit && y4.isDigit && m1.isDigit && m2.isDigit &&
        d1.isDigit && d2.isDigit then
      (isoExtractTime rest).map (fun hms =>
        (digitsVal [y1, y2, y3, y4], digitVal m1 * 10 + digitVal m2,
          digitVal d1 * 10 + digitVal d2, hms))
    else none
  | _ => none

/-- Test of the source's `ISO_DATE_REGEX` against a whole string. -/
def isoMatch (s : String) : Bool := (isoExtract s.data).isSome

/-- Range validity of extracted ISO fields per the ECMAScript Date Time
String Format (hour 24 only with minute and second 0; day bounded by the
month length). -/
def isoFieldsValid (y mo d h mi sec : Nat) : Bool :=
  1 ≤ mo && mo ≤ 12 && 1 ≤ d && d ≤ daysInMonthN (y : Int) mo && mi ≤ 59 && sec ≤ 59 &&
    (h ≤ 23 || (h == 24 && mi == 0 && sec == 0))

/-- ECMAScript parse of a string matching the strict ISO pattern: the denoted
instant, or an invalid date when a field is out of range.  In the fixed-offset
model the date-only (UTC) and date-time (local) interpretations coincide. -/
def parseISOStrict (s : String) : JSDate :=
  match isoExtract s.data with
  | none => none
  | some (y, mo, d, h, mi, sec) =>
    if isoFieldsValid y mo d h mi sec then
      some (makeDay (y : Int) mo (d : Int) * msPerDay +
        ((h : Int) * msPerHour + (mi : Int) * msPerMinute + (sec : Int) * msPerSecond))
    else none

/-- Model of `new Date(s)` for a string argument: ECMAScript ISO parsing on
strings matching the strict pattern, the environment's legacy parser `fb`
otherwise. -/
def jsNewDate (fb : String → JSDate) (s : String) : JSDate :=
  if isoMatch s then parseISOStrict s else fb s

/-- Strip an expected literal from the front of the input, returning the rest. -/
def stripLit : List Char → List Char → Option (List Char)
  | [], l => some l
  | _ :: _, [] => none
  | a :: ps, b :: ls => if a == b then stripLit ps ls else none

/-- Maximal digit prefix and the remainder (the greedy `(\d+)` of the regexes). -/
def takeDigits : List Char → List Char × List Char
  | [] => ([], [])
  | c :: cs => if c.isDigit then (c :: (takeDigits cs).1, (takeDigits cs).2) else ([], c :: cs)

/-- Skip any run of whitespace (the `\s*` of the regexes). -/
def skipWs : List Char → List Char
  | [] => []
  | c :: cs => if isWsChar c then skipWs cs else c :: cs

/-- Require at least one whitespace character, then skip the run (the `\s+`). -/
def skipWs1 : List Char → Option (List Char)
  | [] => none
  | c :: cs => if isWsChar c then some (skipWs cs) else none

/-- Leftmost match of an unanchored pattern: try the matcher at every start
position, as a JS regex `match` does. -/
def scanFirst (f : List Char → Option α) : List Char → Option α
  | [] => f []
  | c :: cs =>
    match f (c :: cs) with
    | some r => some r
    | none => scanFirst f cs

/-- Matcher for `(\d+)\s*<unit>s?\s*later` at a fixed position, returning the
parsed count.  The regex needs no backtracking here: after the greedy pieces
every failure is final (see the alternation analysis in the claims). -/
def unitLaterAt (unit : List Char) (cs : List Char) : Option Nat :=
  match takeDigits cs with
  | ([], _) => none
  | (ds, rest) =>
    match stripLit unit (skipWs rest) with
    | none => none
    | some r2 =>
      let r3 := match r2 with
        | 's' :: t => t
        | _ => r2
      match stripLit "later".data (skipWs r3) with
      | some _ => some (digitsVal ds)
      | none => none

/-- Leftmost match of `/(\d+)\s*hours?\s*later/` over the lower-cased input. -/
def hoursLaterMatch (ls : List Char) : Option Nat := scanFirst (unitLaterAt "hour".data) ls

/-- Leftmost match of `/(\d+)\s*days?\s*later/` over the lower-cased input. -/
def daysLaterMatch (ls : List Char) : Option Nat := scanFirst (unitLaterAt "day".data) ls

/-- Weekday-name alternatives in the order the source regexes list them,
paired with the index the handler later computes by `indexOf` into the
Sunday-first list (0 = Sunday … 6 = Saturday). -/
def weekdayAlternatives : List (List Char × Nat) :=
  [("monday".data, 1), ("tuesday".data, 2), ("wednesday".data, 3), ("thursday".data, 4),
   ("friday".data, 5), ("saturday".data, 6), ("sunday".data, 0)]

/-- First alternative of an alternation that matches at the current position. -/
def matchAlt (alts : List (List Char × α)) (cs : List Char) : Option (α × List Char) :=
  match alts with
  | [] => none
  | (p, v) :: rest =>
    match stripLit p cs with
    | some r => some (v, r)
    | none => matchAlt rest cs

/-- Matcher for `next\s*(monday|…|sunday)` at a fixed position. -/
def nextWeekdayAt (cs : List Char) : Option Nat :=
  match stripLit "next".data cs with
  | none => none
  | some r1 => (matchAlt weekdayAlternatives (skipWs r1)).map (fun p => p.1)

/-- Leftmost match of the `next <weekday>` regex over the lower-cased input. -/
def nextWeekdayMatch (ls : List Char) : Option Nat := scanFirst nextWeekdayAt ls

/-- Date anchor of the compound `"<anchor> at <time>"` rule. -/
inductive CompoundDate
  | cToday
  | cTomorrow
  | cWeekday (i : Nat)
deriving DecidableEq, Repr

/-- Captures of the compound rule's regex
`(today|tomorrow|monday|…|sunday)\s+at\s+(\d+)(?::(\d+))?\s*(am|pm)?`. -/
structure CompoundMatch where
  datePart : CompoundDate
  hourDigits : Nat
  minutes : Option Nat
  meridiem : Option Bool
deriving DecidableEq, Repr

/-- Date-anchor alternatives of the compound rule, in regex order. -/
def compoundDateAlts : List (List Char × CompoundDate) :=
  [("today".data, CompoundDate.cToday), ("tomorrow".data, CompoundDate.cTomorrow)] ++
    weekdayAlternatives.map (fun p => (p.1, CompoundDate.cWeekday p.2))

/-- Matcher for the compound rule at a fixed position. -/
def compoundAt (cs : List Char) : Option CompoundMatch :=
  match matchAlt compoundDateAlts cs with
  | none => none
  | some (dp, r1) =>
    match skipWs1 r1 with
    | none => none
    | some r2 =>
      match stripLit "at".data r2 with
      | none => none
      | some r3 =>
        match skipWs1 r3 with
        | none => none
        | some r4 =>
          match takeDigits r4 with
          | ([], _) => none
          | (hd, r5) =>
            let mr : Option Nat × List Char :=
              match r5 with
              | ':' :: rest =>
                match takeDigits rest with
                | ([], _) => (none, r5)
                | (md, r) => (some (digitsVal md), r)
              | _ => (none, r5)
            let r7 := skipWs mr.2
            let mer : Option Bool :=
              match stripLit "am".data r7 with
              | some _ => some false
              | none =>
                match stripLit "pm".data r7 with
                | some _ => some true
                | none => none
            some ⟨dp, digitsVal hd, mr.1, mer⟩

/-- Leftmost match of the compound rule's regex over the lower-cased input. -/
def compoundMatchOf (ls : List Char) : Option CompoundMatch := scanFirst compoundAt ls

/-- Handler of the `"tomorrow"` rule: reference date + 1 day at 09:00:00.000. -/
def tomorrowApply (t : Int) : Int := setHours4 (setDateOf t (getDateOf t + 1)) 9 0 0 0

/-- Handler of the `"<N> hours later"` rule: `setHours(getHours() + N)`,
minutes/seconds/milliseconds carried over. -/
def hoursLaterApply (t : Int) (n : Nat) : Int := setHours1 t (jsHours t + (n : Int))

/-- Handler of the `"<N> days later"` rule: `setDate(getDate() + N)`,
time of day carried over. -/
def daysLaterApply (t : Int) (n : Nat) : Int := setDateOf t (getDateOf t + (n : Int))

/-- Handler of the `"next week"` rule: reference + 7 days at 09:00:00.000. -/
def nextWeekApply (t : Int) : Int := setHours4 (setDateOf t (getDateOf t + 7)) 9 0 0 0

/-- Day delta the weekday rules compute: `dayOfWeek - currentDay`, pushed
forward by 7 when that difference is ≤ 0. -/
def weekdayDelta (t : Int) (i : Nat) : Int :=
  if (i : Int) - jsWeekDay t ≤ 0 then (i : Int) - jsWeekDay t + 7 else (i : Int) - jsWeekDay t

/-- Handler of the `"next <weekday>"` rule. -/
def nextWeekdayApply (t : Int) (i : Nat) : Int :=
  setHours4 (setDateOf t (getDateOf t + weekdayDelta t i)) 9 0 0 0

/-- Date anchor of the compound rule (today / tomorrow / next occurrence of a
weekday with the same push-forward delta). -/
def compoundAnchor (t : Int) : CompoundDate → Int
  | CompoundDate.cToday => t
  | CompoundDate.cTomorrow => setDateOf t (getDateOf t + 1)
  | CompoundDate.cWeekday i => setDateOf t (getDateOf t + weekdayDelta t i)

/-- Sequential hour adjustment of the compound rule:
`if (isPM && hour < 12) hour += 12; if (!isPM && hour === 12) hour = 0;`. -/
def normalizeHour (hour0 : Int) (isPM : Bool) : Int :=
  if isPM = false ∧ (if isPM = true ∧ hour0 < 12 then hour0 + 12 else hour0) = 12 then 0
  else if isPM = true ∧ hour0 < 12 then hour0 + 12 else hour0

/-- Handler of the compound `"<anchor> at <H>[:MM][am|pm]"` rule. -/
def compoundApply (t : Int) (c : CompoundMatch) : Int :=
  setHours4 (compoundAnchor t c.datePart)
    (normalizeHour (c.hourDigits : Int) (c.meridiem == some true))
    ((c.minutes.getD 0 : Nat) : Int) 0 0

/-- Embedding of `parseDateTime(dateTimeString, referenceDate?)` from the
source's utilities.  `fb` is the environment's legacy `new Date(string)`
parser for strings outside the modeled grammar; `now` is the instant every
`new Date()` of the call reads.  A thrown error is an `Except.error` carrying
the message. -/
def parseDateTime (fb : String → JSDate) (dateTimeString : String)
    (referenceDate : Option JSDate) (now : Int) : Except String JSDate :=
  if isoMatch dateTimeString then Except.ok (jsNewDate fb dateTimeString)
  else
    let reference : JSDate := referenceDate.getD (some now)
    let ls : List Char := lowerTrim dateTimeString
    if ls = "now".data ∨ ls = "today".data then Except.ok (some now)
    else if ls = "tomorrow".data then Except.ok (reference.map tomorrowApply)
    else
      match hoursLaterMatch ls with
      | some n => Except.ok (reference.map (fun t => hoursLaterApply t n))
      | none =>
        match daysLaterMatch ls with
        | some n => Except.ok (reference.map (fun t => daysLaterApply t n))
        | none =>
          if ls = "next week".data then Except.ok (reference.map nextWeekApply)
          else
            match nextWeekdayMatch ls with
            | some i => Except.ok (reference.map (fun t => nextWeekdayApply t i))
            | none =>
              match compoundMatchOf ls with
              | some c => Except.ok (reference.map (fun t => compoundApply t c))
              | none =>
                match fb dateTimeString with
                | some t => Except.ok (some t)
                | none => Except.error ("Unable to parse date/time: " ++ dateTimeString)

/-- JS truthiness of an optional string field: present and non-empty. -/
def truthyStr : Option String → Bool
  | none => false
  | some s => s != ""

/-- JS `x || dflt` for an optional string `x`. -/
def orDefaultStr (x : Option String) (dflt : String) : String :=
  match x with
  | some s => if s != "" then s else dflt
  | none => dflt

/-- JS template interpolation of a possibly-undefined string. -/
def optStr : Option String → String
  | some s => s
  | none => "undefined"

/-- Remote representation of an event time: `{date?, dateTime?, timeZone?}`. -/
structure EventTimeField where
  date : Option String := none
  dateTime : Option String := none
  timeZone : Option String := none
deriving DecidableEq, Repr

/-- Attendee record of the remote service. -/
structure Attendee where
  email : Option String := none
  responseStatus : Option String := none
deriving DecidableEq, Repr

/-- One reminder override (`{method, minutes}`). -/
structure ReminderOverride where
  method : String
  minutes : Int
deriving DecidableEq, Repr

/-- Reminder settings (`{useDefault?, overrides?}`). -/
structure Reminders where
  useDefault : Option Bool := none
  overrides : Option (List ReminderOverride) := none
deriving DecidableEq, Repr

/-- Event record as returned by the remote collaborator. -/
structure GEvent where
  id : Option String := none
  summary : Option String := none
  description : Option String := none
  location : Option String := none
  start : Option EventTimeField := none
  «end» : Option EventTimeField := none
  attendees : Option (List Attendee) := none
  reminders : Option Reminders := none
  htmlLink : Option String := none
  created : Option String := none
deriving DecidableEq, Repr

/-- Calendar-list entry of the remote collaborator. -/
structure CalendarEntry where
  id : Option String := none
  summary : Option String := none
  accessRole : Option String := none
  primary : Option Bool := none
deriving DecidableEq, Repr

/-- Arguments of `create_event` after schema validation (defaults applied). -/
structure CreateEventArgs where
  summary : String
  description : Option String := none
  location : Option String := none
  start : String
  «end» : String
  attendees : Option (List String) := none
  calendarId : String := "primary"
  reminders : Option Reminders := none
deriving DecidableEq, Repr

/-- Arguments of `get_event` after schema validation. -/
structure GetEventArgs where
  eventId : String
  calendarId : String := "primary"
deriving DecidableEq, Repr

/-- Arguments of `update_event` after schema validation. -/
structure UpdateEventArgs where
  eventId : String
  calendarId : String := "primary"
  summary : Option String := none
  description : Option String := none
  location : Option String := none
  start : Option String := none
  «end» : Option String := none
  attendees : Option (List String) := none
deriving DecidableEq, Repr

/-- Arguments of `delete_event` after schema validation. -/
structure DeleteEventArgs where
  eventId : String
  calendarId : String := "primary"
deriving DecidableEq, Repr

/-- Arguments of `list_events` after schema validation. -/
structure ListEventsArgs where
  calendarId : String := "primary"
  timeMin : Option String := none
  timeMax : Option String := none
  maxResults : Int := 10
  orderBy : String := "startTime"
deriving DecidableEq, Repr

/-- Arguments of `search_events` after schema validation. -/
structure SearchEventsArgs where
  query : String
  calendarId : String := "primary"
  timeMin : Option String := none
  timeMax : Option String := none
  maxResults : Int := 10
deriving DecidableEq, Repr

/-- Time payload sent to the remote service.  The model carries the resolved
instant rather than the rendered ISO string (the rendering is injective). -/
structure TimePayload where
  dateTime : Int
  timeZone : String
deriving DecidableEq, Repr

/-- Model of `Date.prototype.toISOString`: it throws a RangeError `"Invalid time value"`
on an invalid date; on a valid one the model returns the instant the rendered
string denotes. -/
def toISOInstant : JSDate → Except String Int
  | some t => Except.ok t
  | none => Except.error "Invalid time value"

/-- Request body of `calendar.events.insert` as the create handler builds it. -/
structure EventBody where
  summary : String
  start : TimePayload
  «end» : TimePayload
  description : Option String := none
  location : Option String := none
  reminders : Option Reminders := none
  attendees : Option (List String) := none
deriving DecidableEq, Repr

/-- Create-event handler core (validation through request-body construction):
`end` is parsed with the already-resolved `start` as its reference. -/
def buildCreateEvent (fb : String → JSDate) (defaultTZ : String) (args : CreateEventArgs)
    (now : Int) : Except String EventBody := do
  let startDateTime ← parseDateTime fb args.start none now
  let endDateTime ← parseDateTime fb args.«end» (some startDateTime) now
  let si ← toISOInstant startDateTime
  let ei ← toISOInstant endDateTime
  pure { summary := args.summary, start := ⟨si, defaultTZ⟩, «end» := ⟨ei, defaultTZ⟩,
         description := if truthyStr args.description then args.description else none,
         location := if truthyStr args.location then args.location else none,
         reminders := args.reminders,
         attendees := match args.attendees with
                      | some l => if l.length > 0 then some l else none
                      | none => none }

/-- Patch body of `calendar.events.patch` as the update handler builds it. -/
structure UpdatePatch where
  summary : Option String := none
  description : Option String := none
  location : Option String := none
  start : Option TimePayload := none
  «end» : Option TimePayload := none
  attendees : Option (List String) := none
deriving DecidableEq, Repr

/-- Reference the update handler uses for `end` when `start` is not updated:
`currentEvent.data.start?.dateTime ? new Date(that) : new Date()`. -/
def storedStartOrNow (fb : String → JSDate) (current : GEvent) (now : Int) : JSDate :=
  match current.start with
  | some f =>
    match f.dateTime with
    | some dt => if dt != "" then jsNewDate fb dt else some now
    | none => some now
  | none => some now

/-- Start payload of the update patch: present exactly when a truthy `start`
is supplied, carrying the resolved start and the stored (or default) zone. -/
def updateStartPayload (fb : String → JSDate) (defaultTZ : String) (args : UpdateEventArgs)
    (current : GEvent) (now : Int) : Except String (Option TimePayload) :=
  if truthyStr args.start then do
    let startDateTime ← parseDateTime fb (args.start.getD "") none now
    let si ← toISOInstant startDateTime
    let tzS := orDefaultStr (current.start.bind EventTimeField.timeZone) defaultTZ
    pure (some ⟨si, tzS⟩)
  else pure none

/-- End payload of the update patch: present exactly when a truthy `end` is
supplied, resolved against the newly resolved start when one is supplied,
else against the stored start (or now). -/
def updateEndPayload (fb : String → JSDate) (defaultTZ : String) (args : UpdateEventArgs)
    (current : GEvent) (now : Int) : Except String (Option TimePayload) :=
  if truthyStr args.«end» then do
    let referenceTime : JSDate ←
      if truthyStr args.start then parseDateTime fb (args.start.getD "") none now
      else pure (storedStartOrNow fb current now)
    let endDateTime ← parseDateTime fb (args.«end».getD "") (some referenceTime) now
    let ei ← toISOInstant endDateTime
    let tzE := orDefaultStr (current.«end».bind EventTimeField.timeZone) defaultTZ
    pure (some ⟨ei, tzE⟩)
  else pure none

/-- Update-event handler core: construction of the patch body from the
validated arguments and the already-fetched current event. -/
def buildUpdatePatch (fb : String → JSDate) (defaultTZ : String) (args : UpdateEventArgs)
    (current : GEvent) (now : Int) : Except String UpdatePatch := do
  let startPayload ← updateStartPayload fb defaultTZ args current now
  let endPayload ← updateEndPayload fb defaultTZ args current now
  pure { summary := if truthyStr args.summary then args.summary else none,
         description := if truthyStr args.description then args.description else none,
         location := if truthyStr args.location then args.location else none,
         start := startPayload, «end» := endPayload,
         attendees := match args.attendees with
                      | some l => if l.length > 0 then some l else none
                      | none => none }

/-- Time-window computation shared verbatim by the list and search handlers,
up to the default span in days (7 for listing, 30 for searching):
`timeMin` defaults to `now`, `timeMax` resolves relative to `timeMin` or
defaults to `timeMin` plus the span. -/
def eventsWindow (fb : String → JSDate) (defaultDays : Int) (timeMinArg timeMaxArg : Option String)
    (now : Int) : Except String (JSDate × JSDate) := do
  let timeMin : JSDate ←
    if truthyStr timeMinArg then parseDateTime fb (timeMinArg.getD "") none now
    else pure (some now)
  let timeMax : JSDate ←
    if truthyStr timeMaxArg then parseDateTime fb (timeMaxArg.getD "") (some timeMin) now
    else pure (timeMin.map (fun t => setDateOf t (getDateOf t + defaultDays)))
  pure (timeMin, timeMax)

/-- Does `hay` contain `sub` as a contiguous substring (JS `String.prototype.includes`)? -/
def hasSub (sub : List Char) : List Char → Bool
  | [] => (stripLit sub []).isSome
  | c :: cs => (stripLit sub (c :: cs)).isSome || hasSub sub cs

/-- Local filter predicate of the search handler: case-insensitive substring
match of the (already lower-cased) query against summary, description and
location. -/
def eventMatchesQuery (q : List Char) (ev : GEvent) : Bool :=
  hasSub q (jsToLower (ev.summary.getD "").data) ||
    hasSub q (jsToLower (ev.description.getD "").data) ||
    hasSub q (jsToLower (ev.location.getD "").data)

/-- Filtering step of the search handler. -/
def searchFilterEvents (query : String) (events : List GEvent) : List GEvent :=
  events.filter (eventMatchesQuery (jsToLower query.data))

/-- Model of `Array.prototype.slice(0, e)`: take the first `e` elements, a negative `e`
counting from the end. -/
def jsSliceTo (l : List α) (e : Int) : List α :=
  l.take (if e < 0 then ((l.length : Int) + e).toNat else e.toNat)

/-- Request of `calendar.events.list` as the handlers build it (the rendered
ISO bounds are carried as the instants they denote). -/
structure ListRequest where
  calendarId : String
  timeMin : Int
  timeMax : Int
  maxResults : Int
  singleEvents : Bool
  orderBy : Option String := none
deriving DecidableEq, Repr

/-- List request the search handler sends: a fixed over-fetch bound of 100
candidate events for local filtering. -/
def searchListRequest (calendarId : String) (timeMinI timeMaxI : Int) : ListRequest :=
  { calendarId := calendarId, timeMin := timeMinI, timeMax := timeMaxI,
    maxResults := 100, singleEvents := true }

/-- Remote calendar collaborator, modeled as oracle functions; an
`Except.error` models an error thrown by the client library. -/
structure RemoteEnv where
  insertEvent : String → EventBody → Except String GEvent
  getEvent : String → String → Except String GEvent
  patchEvent : String → String → UpdatePatch → Except String GEvent
  deleteEvent : String → String → Except String Unit
  listEvents : ListRequest → Except String (List GEvent)
  listCalendars : Except String (List CalendarEntry)

/-- Locale-dependent renderers (`toLocaleDateString`/`toLocaleString` with the
source's option sets), modeled as oracles on date values. -/
structure LocaleEnv where
  longDate : JSDate → String
  longDateTime : JSDate → String
  localeDate : JSDate → String
  localeString : JSDate → String

/-- Replace the first occurrence of `pat` in the list by `rep`
(JS `String.prototype.replace` with a string pattern). -/
def replaceFirstL (pat rep : List Char) : List Char → List Char
  | [] => []
  | c :: cs =>
    match stripLit pat (c :: cs) with
    | some rest => rep ++ rest
    | none => c :: replaceFirstL pat rep cs

/-- String wrapper of `replaceFirstL`. -/
def jsReplaceFirst (s pat rep : String) : String := ⟨replaceFirstL pat.data rep.data s.data⟩

/-- Embedding of `formatDateTime` from the source's utilities, restricted to
the calendar time fields the dispatcher passes it (its other dynamic-type
branches are unreachable from the dispatcher).  A non-object input being
absent maps to `"Not specified"`; an object without a truthy `date` or
`dateTime` stringifies as `"[object Object]"`. -/
def formatDateTime (loc : LocaleEnv) (fb : String → JSDate) : Option EventTimeField → String
  | none => "Not specified"
  | some f =>
    if truthyStr f.dateTime || truthyStr f.date then
      if truthyStr f.date then
        loc.longDate (jsNewDate fb (f.date.getD "" ++ "T00:00:00")) ++ " (All day)"
      else loc.longDateTime (jsNewDate fb (f.dateTime.getD ""))
    else "[object Object]"

/-- Single text payload of a tool response: success and error share this shape. -/
structure ToolResponse where
  text : String
deriving DecidableEq, Repr

/-- Response envelope constructor (`{content: [{type: "text", text}]}`). -/
def mkTextResponse (s : String) : ToolResponse := ⟨s⟩

/-- Zod schema validation (an external library): oracles that either return
the typed arguments with schema defaults applied, or fail as a thrown
ZodError whose message is the carried string. -/
structure ZodEnv (α : Type) where
  parseCreate : α → Except String CreateEventArgs
  parseGet : α → Except String GetEventArgs
  parseUpdate : α → Except String UpdateEventArgs
  parseDelete : α → Except String DeleteEventArgs
  parseList : α → Except String ListEventsArgs
  parseSearch : α → Except String SearchEventsArgs
  parseListCalendars : α → Except String Unit

/-- Attendee display line of the `get_event` handler. -/
def attendeeLine (a : Attendee) : String :=
  let status :=
    if truthyStr a.responseStatus then
      " (" ++ jsReplaceFirst (a.responseStatus.getD "") "needsAction" "pending" ++ ")"
    else ""
  "- " ++ optStr a.email ++ status

/-- Reminder display line of the `get_event` handler. -/
def reminderLine (r : ReminderOverride) : String :=
  "- " ++ r.method ++ " (" ++ toString r.minutes ++ " minutes before)"

/-- Event display line of the list/search handlers. -/
def eventLine (loc : LocaleEnv) (fb : String → JSDate) (idx : Nat) (ev : GEvent) : String :=
  toString (idx + 1) ++ ". " ++ optStr ev.summary ++ " (ID: " ++ optStr ev.id ++ ")\n   When: " ++
    formatDateTime loc fb ev.start ++ " - " ++ formatDateTime loc fb ev.«end» ++ "\n   Where: " ++
    orDefaultStr ev.location "Not specified" ++ "\n"

/-- Joined event display of the list/search handlers. -/
def eventsDisplay (loc : LocaleEnv) (fb : String → JSDate) (events : List GEvent) : String :=
  String.intercalate "\n" (events.mapIdx (fun i ev => eventLine loc fb i ev))

/-- Calendar display line of the `list_calendars` handler. -/
def calendarLine (idx : Nat) (c : CalendarEntry) : String :=
  toString (idx + 1) ++ ". " ++ optStr c.summary ++ " (ID: " ++ optStr c.id ++ ")\n   Access: " ++
    optStr c.accessRole ++ "\n   Primary: " ++ (if c.primary.getD false then "Yes" else "No") ++ "\n"

/-- Body of the `create_event` case of the dispatcher. -/
def runCreateEvent (zod : ZodEnv α) (rt : RemoteEnv) (loc : LocaleEnv) (fb : String → JSDate)
    (defaultTZ : String) (now : Int) (raw : α) : Except String ToolResponse := do
  let v ← zod.parseCreate raw
  let body ← buildCreateEvent fb defaultTZ v now
  let resp ← rt.insertEvent v.calendarId body
  pure (mkTextResponse ("Event created successfully!\nEvent ID: " ++ optStr resp.id ++
    "\nTitle: " ++ optStr resp.summary ++ "\nStart: " ++ formatDateTime loc fb resp.start ++
    "\nEnd: " ++ formatDateTime loc fb resp.«end» ++ "\nLink: " ++ optStr resp.htmlLink))

/-- Body of the `get_event` case of the dispatcher. -/
def runGetEvent (zod : ZodEnv α) (rt : RemoteEnv) (loc : LocaleEnv) (fb : String → JSDate)
    (raw : α) : Except String ToolResponse := do
  let v ← zod.parseGet raw
  let ev ← rt.getEvent v.calendarId v.eventId
  let attendeesText :=
    match ev.attendees with
    | some l =>
      if l.length > 0 then "\nAttendees:\n" ++ String.intercalate "\n" (l.map attendeeLine) else ""
    | none => ""
  let remindersText :=
    match ev.reminders with
    | some r =>
      match r.overrides with
      | some os =>
        if os.length > 0 then "\nReminders:\n" ++ String.intercalate "\n" (os.map reminderLine)
        else ""
      | none => ""
    | none => ""
  let createdDate :=
    if truthyStr ev.created then loc.localeString (jsNewDate fb (ev.created.getD ""))
    else "Unknown"
  pure (mkTextResponse ("Event Details:\nID: " ++ optStr ev.id ++ "\nTitle: " ++ optStr ev.summary ++
    "\nStart: " ++ formatDateTime loc fb ev.start ++ "\nEnd: " ++ formatDateTime loc fb ev.«end» ++
    "\nLocation: " ++ orDefaultStr ev.location "Not specified" ++ "\nDescription: " ++
    orDefaultStr ev.description "No description" ++ "\nCreated: " ++ createdDate ++
    attendeesText ++ remindersText ++ "\nLink: " ++ optStr ev.htmlLink))

/-- Body of the `update_event` case of the dispatcher. -/
def runUpdateEvent (zod : ZodEnv α) (rt : RemoteEnv) (loc : LocaleEnv) (fb : String → JSDate)
    (defaultTZ : String) (now : Int) (raw : α) : Except String ToolResponse := do
  let v ← zod.parseUpdate raw
  let current ← rt.getEvent v.calendarId v.eventId
  let patch ← buildUpdatePatch fb defaultTZ v current now
  let resp ← rt.patchEvent v.calendarId v.eventId patch
  pure (mkTextResponse ("Event updated successfully!\nEvent ID: " ++ optStr resp.id ++
    "\nTitle: " ++ optStr resp.summary ++ "\nStart: " ++ formatDateTime loc fb resp.start ++
    "\nEnd: " ++ formatDateTime loc fb resp.«end» ++ "\nLink: " ++ optStr resp.htmlLink))

/-- Body of the `delete_event` case of the dispatcher. -/
def runDeleteEvent (zod : ZodEnv α) (rt : RemoteEnv) (raw : α) : Except String ToolResponse := do
  let v ← zod.parseDelete raw
  let _ ← rt.deleteEvent v.calendarId v.eventId
  pure (mkTextResponse ("Event with ID " ++ v.eventId ++
    " has been successfully deleted from calendar " ++ v.calendarId ++ "."))

/-- Body of the `list_events` case of the dispatcher. -/
def runListEvents (zod : ZodEnv α) (rt : RemoteEnv) (loc : LocaleEnv) (fb : String → JSDate)
    (now : Int) (raw : α) : Except String ToolResponse := do
  let v ← zod.parseList raw
  let w ← eventsWindow fb 7 v.timeMin v.timeMax now
  let tminI ← toISOInstant w.1
  let tmaxI ← toISOInstant w.2
  let req : ListRequest := { calendarId := v.calendarId, timeMin := tminI, timeMax := tmaxI,
                             maxResults := v.maxResults, singleEvents := true,
                             orderBy := some v.orderBy }
  let events ← rt.listEvents req
  if events.length = 0 then
    pure (mkTextResponse ("No events found in the specified time range (" ++
      loc.localeDate (some tminI) ++ " - " ++ loc.localeDate (some tmaxI) ++ ")."))
  else
    pure (mkTextResponse ("Found " ++ toString events.length ++ " events between " ++
      loc.localeDate (some tminI) ++ " and " ++ loc.localeDate (some tmaxI) ++ ":\n\n" ++
      eventsDisplay loc fb events))

/-- Body of the `search_events` case of the dispatcher: over-fetch 100
candidates, filter locally, truncate to the requested count. -/
def runSearchEvents (zod : ZodEnv α) (rt : RemoteEnv) (loc : LocaleEnv) (fb : String → JSDate)
    (now : Int) (raw : α) : Except String ToolResponse := do
  let v ← zod.parseSearch raw
  let w ← eventsWindow fb 30 v.timeMin v.timeMax now
  let tminI ← toISOInstant w.1
  let tmaxI ← toISOInstant w.2
  let fetched ← rt.listEvents (searchListRequest v.calendarId tminI tmaxI)
  let filtered := searchFilterEvents v.query fetched
  let events := jsSliceTo filtered v.maxResults
  if events.length = 0 then
    pure (mkTextResponse ("No events found matching \"" ++ v.query ++
      "\" in the specified time range."))
  else
    pure (mkTextResponse ("Found " ++ toString events.length ++ " events matching \"" ++
      v.query ++ "\":\n\n" ++ eventsDisplay loc fb events))

/-- Body of the `list_calendars` case of the dispatcher. -/
def runListCalendars (zod : ZodEnv α) (rt : RemoteEnv) (raw : α) : Except String ToolResponse := do
  let _ ← zod.parseListCalendars raw
  let cals ← rt.listCalendars
  if cals.length = 0 then
    pure (mkTextResponse "No calendars found in your Google account.")
  else
    pure (mkTextResponse ("Found " ++ toString cals.length ++ " calendars:\n\n" ++
      String.intercalate "\n" (cals.mapIdx (fun i c => calendarLine i c))))

/-- Switch body of the `CallToolRequestSchema` handler: the named case, or the
thrown `Unknown tool` error. -/
def runTool (zod : ZodEnv α) (rt : RemoteEnv) (loc : LocaleEnv) (fb : String → JSDate)
    (defaultTZ : String) (now : Int) (name : String) (raw : α) : Except String ToolResponse :=
  if name = "create_event" then runCreateEvent zod rt loc fb defaultTZ now raw
  else if name = "get_event" then runGetEvent zod rt loc fb raw
  else if name = "update_event" then runUpdateEvent zod rt loc fb defaultTZ now raw
  else if name = "delete_event" then runDeleteEvent zod rt raw
  else if name = "list_events" then runListEvents zod rt loc fb now raw
  else if name = "search_events" then runSearchEvents zod rt loc fb now raw
  else if name = "list_calendars" then runListCalendars zod rt raw
  else Except.error ("Unknown tool: " ++ name)

/-- Dispatcher boundary: run the switch under the `try`, converting any thrown
error into the textual `Error: <message>` payload in the same envelope. -/
def dispatchToolCall (zod : ZodEnv α) (rt : RemoteEnv) (loc : LocaleEnv) (fb : String → JSDate)
    (defaultTZ : String) (now : Int) (name : String) (raw : α) : ToolResponse :=
  match runTool zod rt loc fb defaultTZ now name raw with
  | Except.ok r => r
  | Except.error m => mkTextResponse ("Error: " ++ m)

/-- Names of the seven registered tools. -/
def registeredToolNames : List String :=
  ["create_event", "get_event", "update_event", "delete_event", "list_events",
   "search_events", "list_calendars"]

/-- Legacy date parser that accepts nothing (a possible environment, used to
instantiate the theorems at concrete inputs). -/
def fbNone : String → JSDate := fun _ => none

/-- Trivial locale renderers, used to instantiate the theorems. -/
def locTest : LocaleEnv :=
  { longDate := fun _ => "", longDateTime := fun _ => "",
    localeDate := fun _ => "", localeString := fun _ => "" }

/-- Remote collaborator whose every call fails, used to instantiate the theorems. -/
def rtTest : RemoteEnv :=
  { insertEvent := fun _ _ => Except.error "network unavailable",
    getEvent := fun _ _ => Except.error "network unavailable",
    patchEvent := fun _ _ _ => Except.error "network unavailable",
    deleteEvent := fun _ _ => Except.error "network unavailable",
    listEvents := fun _ => Except.error "network unavailable",
    listCalendars := Except.error "network unavailable" }

/-- Validator rejecting every payload, used to instantiate the theorems. -/
def zodTest : ZodEnv Unit :=
  { parseCreate := fun _ => Except.error "invalid arguments",
    parseGet := fun _ => Except.error "invalid arguments",
    parseUpdate := fun _ => Except.error "invalid arguments",
    parseDelete := fun _ => Except.error "invalid arguments",
    parseList := fun _ => Except.error "invalid arguments",
    parseSearch := fun _ => Except.error "invalid arguments",
    parseListCalendars := fun _ => Except.error "invalid arguments" }

/-- Weekday names by handler index (0 = Sunday … 6 = Saturday). -/
def weekdayNameStr : Nat → String
  | 0 => "sunday"
  | 1 => "monday"
  | 2 => "tuesday"
  | 3 => "wednesday"
  | 4 => "thursday"
  | 5 => "friday"
  | _ => "saturday"

-- ===== THEOREMS =====

theorem dayFromYear_succ (y : Int) : dayFromYear (y + 1) = dayFromYear y + (daysInYearN y : Int) := by
  unfold dayFromYear daysInYearN isLeap
  have h4 : (y + 1 - 1969) / 4 = (y - 1968) / 4 := by ring_nf
  have h100 : (y + 1 - 1901) / 100 = (y - 1900) / 100 := by ring_nf
  have h400 : (y + 1 - 1601) / 400 = (y - 1600) / 400 := by ring_nf
  rw [h4, h100, h400]
  simp only [Bool.or_eq_true, Bool.and_eq_true, beq_iff_eq, bne_iff_ne]
  split <;> omega

theorem dayFromYear_1970 : dayFromYear 1970 = 0 := by decide

theorem yearUp_spec (n : Nat) (y : Int) :
    dayFromYear (yearUp y n).1 + ((yearUp y n).2 : Int) = dayFromYear y + n ∧
      (yearUp y n).2 < daysInYearN (yearUp y n).1 := by
  induction n using Nat.strong_induction_on generalizing y with
  | _ n ih =>
    unfold yearUp
    split
    · simpa using by assumption
    · rename_i h
      have h365 : 365 ≤ daysInYearN y := by unfold daysInYearN; split <;> omega
      have hlt : n - daysInYearN y < n := by omega
      have := ih (n - daysInYearN y) hlt (y + 1)
      refine ⟨?_, this.2⟩
      rw [this.1, dayFromYear_succ]
      omega

theorem yearDown_spec (y : Int) (n : Int) :
    dayFromYear (yearDown y n).1 + ((yearDown y n).2 : Int) = dayFromYear y + n := by
  induction y, n using yearDown.induct with
  | case1 y n hge =>
    unfold yearDown
    rw [dif_pos hge]
    dsimp only
    have := dayFromYear_succ (y - 1)
    simp only [sub_add_cancel] at this
    omega
  | case2 y n hlt ih =>
    unfold yearDown
    rw [dif_neg hlt]
    have hstep := dayFromYear_succ (y - 1)
    simp only [sub_add_cancel] at hstep
    omega

theorem civilDoy_spec (n : Int) :
    dayFromYear (civilDoy n).1 + ((civilDoy n).2 : Int) = n := by
  unfold civilDoy
  split
  · rename_i h
    have := yearUp_spec n.toNat 1970
    rw [dayFromYear_1970] at this
    omega
  · have := yearDown_spec 1970 n
    rw [dayFromYear_1970] at this
    omega

theorem monthDay_spec (y : Int) (m doy : Nat) :
    1 ≤ m →
      (daysBeforeMonth y (monthDay y m doy).1 : Int) + ((monthDay y m doy).2 : Int) - 1 =
        (daysBeforeMonth y m : Int) + doy := by
  induction m, doy using monthDay.induct y with
  | case1 m doy h12 =>
    intro _hm
    unfold monthDay
    rw [if_pos h12]
    push_cast; ring
  | case2 m doy h12 hd =>
    intro _hm
    unfold monthDay
    rw [if_neg h12, if_pos hd]
    push_cast; ring
  | case3 m doy h12 hd ih =>
    intro hm
    unfold monthDay
    rw [if_neg h12, if_neg hd]
    rw [ih (by omega)]
    have hge : daysInMonthN y m ≤ doy := by omega
    obtain ⟨k, rfl⟩ : ∃ k, m = k + 1 := ⟨m - 1, by omega⟩
    have hstep : daysBeforeMonth y (k + 1 + 1) = daysBeforeMonth y (k + 1) + daysInMonthN y (k + 1) := rfl
    rw [hstep]
    push_cast [hge]
    ring

theorem makeDay_civilFromDays (n : Int) :
    makeDay (civilFromDays n).1 (civilFromDays n).2.1 ((civilFromDays n).2.2 : Int) = n := by
  unfold civilFromDays makeDay
  simp only
  have hm := monthDay_spec (civilDoy n).1 1 (civilDoy n).2 (by omega)
  have hy := civilDoy_spec n
  have h1 : daysBeforeMonth (civilDoy n).1 1 = 0 := rfl
  rw [h1] at hm
  push_cast at hm ⊢
  omega

theorem timeWithinDay_bounds (t : Int) : 0 ≤ timeWithinDay t ∧ timeWithinDay t < msPerDay := by
  unfold timeWithinDay msPerDay
  omega

theorem jsDay_reassemble (t : Int) : jsDay t * msPerDay + timeWithinDay t = t := by
  unfold jsDay timeWithinDay msPerDay
  omega

theorem setDate_getDate_add (t k : Int) :
    setDateOf t (getDateOf t + k) = (jsDay t + k) * msPerDay + timeWithinDay t := by
  unfold setDateOf getDateOf
  have h := makeDay_civilFromDays (jsDay t)
  have : makeDay (civilFromDays (jsDay t)).1 (civilFromDays (jsDay t)).2.1
      (((civilFromDays (jsDay t)).2.2 : Int) + k) =
      makeDay (civilFromDays (jsDay t)).1 (civilFromDays (jsDay t)).2.1
        ((civilFromDays (jsDay t)).2.2 : Int) + k := by
    unfold makeDay; ring
  rw [this, h]

theorem jsDay_mk (D r : Int) (h0 : 0 ≤ r) (h1 : r < msPerDay) :
    jsDay (D * msPerDay + r) = D := by
  unfold msPerDay at h1
  unfold jsDay msPerDay
  omega

theorem nextWeekdayApply_eq (t : Int) (i : Nat) :
    nextWeekdayApply t i = (jsDay t + weekdayDelta t i) * msPerDay + 9 * msPerHour := by
  unfold nextWeekdayApply setHours4
  rw [setDate_getDate_add, jsDay_mk _ _ (timeWithinDay_bounds _).1 (timeWithinDay_bounds _).2]
  unfold msPerHour msPerMinute msPerSecond
  ring

theorem weekdayRuleProps (t : Int) (i : Nat) (hi : i < 7) :
    jsDay (nextWeekdayApply t i) = jsDay t + weekdayDelta t i ∧
      weekdayDelta t i =
        (if ((i : Int) - jsWeekDay t) % 7 ≤ 0 then ((i : Int) - jsWeekDay t) % 7 + 7
         else ((i : Int) - jsWeekDay t) % 7) ∧
      jsWeekDay (nextWeekdayApply t i) = (i : Int) ∧
      jsHours (nextWeekdayApply t i) = 9 ∧
      jsMinutes (nextWeekdayApply t i) = 0 ∧
      jsSeconds (nextWeekdayApply t i) = 0 ∧
      jsMilliseconds (nextWeekdayApply t i) = 0 ∧
      jsDay t < jsDay (nextWeekdayApply t i) ∧
      (jsWeekDay t = (i : Int) → jsDay (nextWeekdayApply t i) = jsDay t + 7) := by
  rw [nextWeekdayApply_eq]
  unfold weekdayDelta jsWeekDay jsHours jsMinutes jsSeconds jsMilliseconds jsDay
  unfold msPerDay msPerHour msPerMinute msPerSecond
  split_ifs <;> omega

/-- C5: for every reference instant, `resolve("next <weekday>", ref)` returns
the next occurrence of the named weekday strictly after the reference's
weekday, at 09:00:00.000: the day delta equals `(target - reference) mod 7`
pushed forward by 7 when that is ≤ 0, so the result day is strictly later
than the reference's day and a reference already on the named weekday
resolves to exactly 7 days ahead. -/
theorem c5_next_weekday (fb : String → JSDate) (t now : Int) (i : Nat) (hi : i < 7) :
    ∃ r : Int,
      parseDateTime fb ("next " ++ weekdayNameStr i) (some (some t)) now =
          Except.ok (some r) ∧
        jsDay r = jsDay t + weekdayDelta t i ∧
        weekdayDelta t i =
          (if ((i : Int) - jsWeekDay t) % 7 ≤ 0 then ((i : Int) - jsWeekDay t) % 7 + 7
           else ((i : Int) - jsWeekDay t) % 7) ∧
        jsWeekDay r = (i : Int) ∧
        jsHours r = 9 ∧
        jsMinutes r = 0 ∧
        jsSeconds r = 0 ∧
        jsMilliseconds r = 0 ∧
        jsDay t < jsDay r ∧
        (jsWeekDay t = (i : Int) → jsDay r = jsDay t + 7) := by
  interval_cases i
  · exact ⟨nextWeekdayApply t 0, rfl, weekdayRuleProps t 0 (by norm_num)⟩
  · exact ⟨nextWeekdayApply t 1, rfl, weekdayRuleProps t 1 (by norm_num)⟩
  · exact ⟨nextWeekdayApply t 2, rfl, weekdayRuleProps t 2 (by norm_num)⟩
  · exact ⟨nextWeekdayApply t 3, rfl, weekdayRuleProps t 3 (by norm_num)⟩
  · exact ⟨nextWeekdayApply t 4, rfl, weekdayRuleProps t 4 (by norm_num)⟩
  · exact ⟨nextWeekdayApply t 5, rfl, weekdayRuleProps t 5 (by norm_num)⟩
  · exact ⟨nextWeekdayApply t 6, rfl, weekdayRuleProps t 6 (by norm_num)⟩

/-- Witness for C5: `"next monday"` from the epoch instant (a Thursday). -/
theorem c5_next_weekday_witness :
    ∃ r : Int,
      parseDateTime fbNone "next monday" (some (some 0)) 0 = Except.ok (some r) ∧
        jsHours r = 9 ∧ jsWeekDay r = 1 ∧ jsDay 0 < jsDay r := by
  obtain ⟨r, hp, _hd, _hf, hw, hh, _, _, _, hlt, _⟩ :=
    c5_next_weekday fbNone 0 0 1 (by norm_num)
  exact ⟨r, hp, hh, hw, hlt⟩

theorem setHours4_fields (b h m : Int) (h0 : 0 ≤ h) (h23 : h ≤ 23) (m0 : 0 ≤ m) (m59 : m ≤ 59) :
    jsHours (setHours4 b h m 0 0) = h ∧ jsMinutes (setHours4 b h m 0 0) = m ∧
      jsSeconds (setHours4 b h m 0 0) = 0 ∧ jsMilliseconds (setHours4 b h m 0 0) = 0 := by
  unfold setHours4 jsHours jsMinutes jsSeconds jsMilliseconds jsDay
  unfold msPerDay msPerHour msPerMinute msPerSecond
  refine ⟨?_, ?_, ?_, ?_⟩ <;> omega

theorem normalizeHour_spec (h : Nat) (mer : Option Bool) :
    normalizeHour (h : Int) (mer == some true) =
      (if mer = some true ∧ h < 12 then (h : Int) + 12
       else if (mer = none ∨ mer = some false) ∧ h = 12 then 0
       else (h : Int)) := by
  rcases mer with _ | b
  · simp only [normalizeHour, show ((none : Option Bool) == some true) = false from rfl]
    simp
    try split_ifs <;> omega
  · cases b
    · simp only [normalizeHour, show ((some false : Option Bool) == some true) = false from rfl]
      simp
      try split_ifs <;> omega
    · simp only [normalizeHour, show ((some true : Option Bool) == some true) = true from rfl]
      simp

theorem normalizeHour_bounds (h : Nat) (b : Bool) (h23 : h ≤ 23) :
    0 ≤ normalizeHour (h : Int) b ∧ normalizeHour (h : Int) b ≤ 23 := by
  cases b <;> simp [normalizeHour] <;> split_ifs <;> omega

/-- C6: the compound rule's hour normalization: `pm` with hour < 12 adds 12,
an absent meridiem or `am` with hour 12 gives 0, minutes default to 0,
seconds and milliseconds are always 0; in particular `"tomorrow at 12am"`
resolves to hour 0, `"tomorrow at 12pm"` to hour 12 and `"tomorrow at 9pm"`
to hour 21. -/
theorem c6_compound_hour_normalization (fb : String → JSDate) (t : Int) (now : Int) :
    (∀ c : CompoundMatch, c.hourDigits ≤ 23 → c.minutes.getD 0 ≤ 59 →
      jsHours (compoundApply t c) =
          (if c.meridiem = some true ∧ c.hourDigits < 12 then (c.hourDigits : Int) + 12
           else if (c.meridiem = none ∨ c.meridiem = some false) ∧ c.hourDigits = 12 then 0
           else (c.hourDigits : Int)) ∧
        jsMinutes (compoundApply t c) = (c.minutes.getD 0 : Int) ∧
        jsSeconds (compoundApply t c) = 0 ∧
        jsMilliseconds (compoundApply t c) = 0) ∧
    (∃ r : Int,
      parseDateTime fb "tomorrow at 12am" (some (some t)) now = Except.ok (some r) ∧
        jsHours r = 0) ∧
    (∃ r : Int,
      parseDateTime fb "tomorrow at 12pm" (some (some t)) now = Except.ok (some r) ∧
        jsHours r = 12) ∧
    (∃ r : Int,
      parseDateTime fb "tomorrow at 9pm" (some (some t)) now = Except.ok (some r) ∧
        jsHours r = 21) := by
  have main : ∀ c : CompoundMatch, c.hourDigits ≤ 23 → c.minutes.getD 0 ≤ 59 →
      jsHours (compoundApply t c) =
          (if c.meridiem = some true ∧ c.hourDigits < 12 then (c.hourDigits : Int) + 12
           else if (c.meridiem = none ∨ c.meridiem = some false) ∧ c.hourDigits = 12 then 0
           else (c.hourDigits : Int)) ∧
        jsMinutes (compoundApply t c) = (c.minutes.getD 0 : Int) ∧
        jsSeconds (compoundApply t c) = 0 ∧
        jsMilliseconds (compoundApply t c) = 0 := by
    intro c hh hm
    have hb := normalizeHour_bounds c.hourDigits (c.meridiem == some true) hh
    have hf := setHours4_fields (compoundAnchor t c.datePart)
      (normalizeHour (c.hourDigits : Int) (c.meridiem == some true))
      ((c.minutes.getD 0 : Nat) : Int) hb.1 hb.2 (by positivity) (by exact_mod_cast hm)
    unfold compoundApply
    refine ⟨?_, hf.2.1, hf.2.2.1, hf.2.2.2⟩
    rw [hf.1, normalizeHour_spec]
  refine ⟨main, ?_, ?_, ?_⟩
  · refine ⟨compoundApply t ⟨CompoundDate.cTomorrow, 12, none, some false⟩, rfl, ?_⟩
    have := (main ⟨CompoundDate.cTomorrow, 12, none, some false⟩ (by norm_num) (by norm_num)).1
    simpa using this
  · refine ⟨compoundApply t ⟨CompoundDate.cTomorrow, 12, none, some true⟩, rfl, ?_⟩
    have := (main ⟨CompoundDate.cTomorrow, 12, none, some true⟩ (by norm_num) (by norm_num)).1
    simpa using this
  · refine ⟨compoundApply t ⟨CompoundDate.cTomorrow, 9, none, some true⟩, rfl, ?_⟩
    have := (main ⟨CompoundDate.cTomorrow, 9, none, some true⟩ (by norm_num) (by norm_num)).1
    simpa using this

/-- Witness for C6: the three compound phrases from the epoch instant. -/
theorem c6_compound_hour_normalization_witness :
    (∃ r : Int,
      parseDateTime fbNone "tomorrow at 12am" (some (some 0)) 0 = Except.ok (some r) ∧
        jsHours r = 0) ∧
    (∃ r : Int,
      parseDateTime fbNone "tomorrow at 9pm" (some (some 0)) 0 = Except.ok (some r) ∧
        jsHours r = 21) := by
  obtain ⟨_, h1, _, h3⟩ := c6_compound_hour_normalization fbNone 0 0
  exact ⟨h1, h3⟩

/-- C8: an expression matching the strict ISO pattern is parsed directly: the
result is the ECMAScript parse of the expression itself and is independent of
the reference instant (and of the call time), which are ignored. -/
theorem c8_iso_direct (fb : String → JSDate) (s : String) (h : isoMatch s = true)
    (ref ref' : Option JSDate) (now now' : Int) :
    parseDateTime fb s ref now = Except.ok (parseISOStrict s) ∧
      parseDateTime fb s ref now = parseDateTime fb s ref' now' := by
  constructor <;> simp [parseDateTime, jsNewDate, h]

/-- Witness for C8: a concrete ISO expression under two different references. -/
theorem c8_iso_direct_witness :
    parseDateTime fbNone "2025-04-01T14:00" (some (some 987654321)) 11111 =
        Except.ok (parseISOStrict "2025-04-01T14:00") ∧
      parseDateTime fbNone "2025-04-01T14:00" (some (some 987654321)) 11111 =
        parseDateTime fbNone "2025-04-01T14:00" none 0 := by
  exact c8_iso_direct fbNone "2025-04-01T14:00" (by decide) (some (some 987654321)) none 11111 0

/-- C1 counterexample: `"2025-13-01"` matches the strict ISO pattern (digit
string with an out-of-range month), yet `resolve` returns it as an *invalid*
(NaN) instant — `Except.ok none` in the model — instead of a valid instant or
a `ParseError`, refuting the claimed invariant. -/
theorem c1_iso_invalid_counterexample :
    isoMatch "2025-13-01" = true ∧
      parseDateTime fbNone "2025-13-01" none 0 = Except.ok none := by
  exact ⟨by decide, by rfl⟩

/-- C1 amended: for a string matching the strict ISO pattern the resolver
returns the direct ECMAScript parse — an invalid (NaN) instant exactly when
the encoded fields are out of range; for every other string (given a valid
reference and call instant) it returns a valid instant or fails with a
`ParseError` carrying the original string. -/
theorem c1_resolver_amended (fb : String → JSDate) (s : String) (ref : Option JSDate)
    (now : Int) (href : ∀ d : JSDate, ref = some d → d.isSome = true) :
    (isoMatch s = true → parseDateTime fb s ref now = Except.ok (parseISOStrict s)) ∧
      (isoMatch s = false →
        (∃ t : Int, parseDateTime fb s ref now = Except.ok (some t)) ∨
          parseDateTime fb s ref now = Except.error ("Unable to parse date/time: " ++ s)) := by
  constructor
  · intro h
    simp [parseDateTime, jsNewDate, h]
  · intro hiso
    obtain ⟨x, hx⟩ : ∃ x : Int, ref.getD (some now) = some x := by
      cases ref with
      | none => exact ⟨now, rfl⟩
      | some d =>
        have hd := href d rfl
        cases d with
        | none => simp at hd
        | some v => exact ⟨v, rfl⟩
    simp only [parseDateTime, hiso, Bool.false_eq_true, if_false, hx]
    by_cases h1 : lowerTrim s = "now".data ∨ lowerTrim s = "today".data
    · rw [if_pos h1]
      exact Or.inl ⟨now, rfl⟩
    · rw [if_neg h1]
      by_cases h2 : lowerTrim s = "tomorrow".data
      · rw [if_pos h2]
        exact Or.inl ⟨tomorrowApply x, rfl⟩
      · rw [if_neg h2]
        cases h3 : hoursLaterMatch (lowerTrim s) with
        | some n => exact Or.inl ⟨hoursLaterApply x n, rfl⟩
        | none =>
          cases h4 : daysLaterMatch (lowerTrim s) with
          | some n => exact Or.inl ⟨daysLaterApply x n, rfl⟩
          | none =>
            by_cases h5 : lowerTrim s = "next week".data
            · rw [if_pos h5]
              exact Or.inl ⟨nextWeekApply x, rfl⟩
            · rw [if_neg h5]
              cases h6 : nextWeekdayMatch (lowerTrim s) with
              | some i => exact Or.inl ⟨nextWeekdayApply x i, rfl⟩
              | none =>
                cases h7 : compoundMatchOf (lowerTrim s) with
                | some c => exact Or.inl ⟨compoundApply x c, rfl⟩
                | none =>
                  cases h8 : fb s with
                  | some t => exact Or.inl ⟨t, rfl⟩
                  | none => exact Or.inr rfl

/-- Witness for C1 (amended): a valid reference with one phrase per outcome. -/
theorem c1_resolver_amended_witness :
    (∃ t : Int, parseDateTime fbNone "tomorrow" (some (some 0)) 0 = Except.ok (some t)) ∨
      parseDateTime fbNone "tomorrow" (some (some 0)) 0 =
        Except.error ("Unable to parse date/time: " ++ "tomorrow") := by
  exact (c1_resolver_amended fbNone "tomorrow" (some (some 0)) 0
    (by intro d hd; cases hd; rfl)).2 (by decide)

theorem parseDateTime_iso_eq (fb : String → JSDate) (s : String) (ref : Option JSDate)
    (now : Int) (h : isoMatch s = true) :
    parseDateTime fb s ref now = Except.ok (parseISOStrict s) := by
  simp [parseDateTime, jsNewDate, h]

/-- C3: the create handler resolves `end` with the already-resolved `start` as
its reference instant; concretely, `start = "2025-04-01T14:00:00"` with
`end = "2 hours later"` resolves the end to the instant of
`2025-04-01T16:00:00`. -/
theorem c3_create_end_reference (fb : String → JSDate) (tz : String) (args : CreateEventArgs)
    (now : Int) :
    (∀ (sd : JSDate) (ti te : Int),
      parseDateTime fb args.start none now = Except.ok sd →
      parseDateTime fb args.«end» (some sd) now = Except.ok (some te) →
      sd = some ti →
      ∃ body : EventBody, buildCreateEvent fb tz args now = Except.ok body ∧
        body.start = ⟨ti, tz⟩ ∧ body.«end» = ⟨te, tz⟩) ∧
    (args.start = "2025-04-01T14:00:00" → args.«end» = "2 hours later" →
      ∃ body : EventBody, buildCreateEvent fb tz args now = Except.ok body ∧
        body.«end».dateTime = 1743523200000 ∧
        parseISOStrict "2025-04-01T16:00:00" = some body.«end».dateTime) := by
  constructor
  · intro sd ti te h1 h2 h3
    subst h3
    refine ⟨{ summary := args.summary, start := ⟨ti, tz⟩, «end» := ⟨te, tz⟩,
              description := if truthyStr args.description then args.description else none,
              location := if truthyStr args.location then args.location else none,
              reminders := args.reminders,
              attendees := match args.attendees with
                           | some l => if l.length > 0 then some l else none
                           | none => none }, ?_, rfl, rfl⟩
    simp [buildCreateEvent, h1, h2, toISOInstant, bind, Except.bind, Except.map, Functor.map, pure, Except.pure]
  · intro hs he
    have h1 : parseDateTime fb args.start none now = Except.ok (some 1743516000000) := by
      rw [hs, parseDateTime_iso_eq fb _ _ _ (by decide)]
      rfl
    have h2 : parseDateTime fb args.«end» (some (some 1743516000000)) now =
        Except.ok (some 1743523200000) := by
      rw [he]
      rfl
    refine ⟨{ summary := args.summary, start := ⟨1743516000000, tz⟩,
              «end» := ⟨1743523200000, tz⟩,
              description := if truthyStr args.description then args.description else none,
              location := if truthyStr args.location then args.location else none,
              reminders := args.reminders,
              attendees := match args.attendees with
                           | some l => if l.length > 0 then some l else none
                           | none => none }, ?_, rfl, ?_⟩
    · simp [buildCreateEvent, h1, h2, toISOInstant, bind, Except.bind, Except.map, Functor.map, pure, Except.pure]
    · rfl

/-- Witness for C3: the concrete create call of the claim. -/
theorem c3_create_end_reference_witness :
    ∃ body : EventBody,
      buildCreateEvent fbNone "UTC"
          { summary := "m", start := "2025-04-01T14:00:00", «end» := "2 hours later" } 0 =
        Except.ok body ∧
      body.«end».dateTime = 1743523200000 ∧
      parseISOStrict "2025-04-01T16:00:00" = some body.«end».dateTime := by
  exact (c3_create_end_reference fbNone "UTC"
    { summary := "m", start := "2025-04-01T14:00:00", «end» := "2 hours later" } 0).2 rfl rfl

/-- C2: in the update handler, with both `start` and `end` supplied the `end`
resolves against the newly resolved `start`; with only `end` supplied it
resolves against the stored event's start `dateTime` (parsed by `new Date`),
or against the current instant when the stored event has no start; with only
`start` supplied the patched start's timezone is the stored event's zone, not
the process default, whenever the stored event has one. -/
theorem c2_update_references (fb : String → JSDate) (tz : String) (args : UpdateEventArgs)
    (cur : GEvent) (now : Int) :
    (∀ (s e : String) (ts te : Int), args.start = some s → s ≠ "" →
      args.«end» = some e → e ≠ "" →
      parseDateTime fb s none now = Except.ok (some ts) →
      parseDateTime fb e (some (some ts)) now = Except.ok (some te) →
      ∃ p : UpdatePatch, buildUpdatePatch fb tz args cur now = Except.ok p ∧
        p.start = some ⟨ts, orDefaultStr (cur.start.bind EventTimeField.timeZone) tz⟩ ∧
        p.«end» = some ⟨te, orDefaultStr (cur.«end».bind EventTimeField.timeZone) tz⟩) ∧
    (∀ (e : String) (f : EventTimeField) (dt : String) (te : Int),
      args.start = none → args.«end» = some e → e ≠ "" →
      cur.start = some f → f.dateTime = some dt → dt ≠ "" →
      parseDateTime fb e (some (jsNewDate fb dt)) now = Except.ok (some te) →
      ∃ p : UpdatePatch, buildUpdatePatch fb tz args cur now = Except.ok p ∧
        p.start = none ∧
        p.«end» = some ⟨te, orDefaultStr (cur.«end».bind EventTimeField.timeZone) tz⟩) ∧
    (∀ (e : String) (te : Int),
      args.start = none → args.«end» = some e → e ≠ "" → cur.start = none →
      parseDateTime fb e (some (some now)) now = Except.ok (some te) →
      ∃ p : UpdatePatch, buildUpdatePatch fb tz args cur now = Except.ok p ∧
        p.start = none ∧
        p.«end» = some ⟨te, orDefaultStr (cur.«end».bind EventTimeField.timeZone) tz⟩) ∧
    (∀ (s : String) (f : EventTimeField) (z : String) (ts : Int),
      args.start = some s → s ≠ "" → args.«end» = none →
      cur.start = some f → f.timeZone = some z → z ≠ "" →
      parseDateTime fb s none now = Except.ok (some ts) →
      ∃ p : UpdatePatch, buildUpdatePatch fb tz args cur now = Except.ok p ∧
        p.start = some ⟨ts, z⟩ ∧ p.«end» = none) := by
  refine ⟨?_, ?_, ?_, ?_⟩
  · intro s e ts te hs hs' he he' hp1 hp2
    have hts : truthyStr (some s) = true := by simpa [truthyStr] using hs'
    have hte : truthyStr (some e) = true := by simpa [truthyStr] using he'
    refine ⟨{ summary := if truthyStr args.summary then args.summary else none,
              description := if truthyStr args.description then args.description else none,
              location := if truthyStr args.location then args.location else none,
              start := some ⟨ts, orDefaultStr (cur.start.bind EventTimeField.timeZone) tz⟩,
              «end» := some ⟨te, orDefaultStr (cur.«end».bind EventTimeField.timeZone) tz⟩,
              attendees := match args.attendees with
                           | some l => if l.length > 0 then some l else none
                           | none => none }, ?_, rfl, rfl⟩
    simp [buildUpdatePatch, updateStartPayload, updateEndPayload, hts, hte, hs, he, hp1, hp2,
      toISOInstant, bind, Except.bind, pure, Except.pure]
  · intro e f dt te h0 he he' hc hdt hdt' hp
    have hts : truthyStr (none : Option String) = false := rfl
    have hte : truthyStr (some e) = true := by simpa [truthyStr] using he'
    have hst : storedStartOrNow fb cur now = jsNewDate fb dt := by
      simp [storedStartOrNow, hc, hdt, hdt']
    refine ⟨{ summary := if truthyStr args.summary then args.summary else none,
              description := if truthyStr args.description then args.description else none,
              location := if truthyStr args.location then args.location else none,
              start := none,
              «end» := some ⟨te, orDefaultStr (cur.«end».bind EventTimeField.timeZone) tz⟩,
              attendees := match args.attendees with
                           | some l => if l.length > 0 then some l else none
                           | none => none }, ?_, rfl, rfl⟩
    simp [buildUpdatePatch, updateStartPayload, updateEndPayload, h0, hts, hte, he, hst, hp,
      toISOInstant, bind, Except.bind, pure, Except.pure]
  · intro e te h0 he he' hc hp
    have hts : truthyStr (none : Option String) = false := rfl
    have hte : truthyStr (some e) = true := by simpa [truthyStr] using he'
    have hst : storedStartOrNow fb cur now = some now := by
      simp [storedStartOrNow, hc]
    refine ⟨{ summary := if truthyStr args.summary then args.summary else none,
              description := if truthyStr args.description then args.description else none,
              location := if truthyStr args.location then args.location else none,
              start := none,
              «end» := some ⟨te, orDefaultStr (cur.«end».bind EventTimeField.timeZone) tz⟩,
              attendees := match args.attendees with
                           | some l => if l.length > 0 then some l else none
                           | none => none }, ?_, rfl, rfl⟩
    simp [buildUpdatePatch, updateStartPayload, updateEndPayload, h0, hts, hte, he, hst, hp,
      toISOInstant, bind, Except.bind, pure, Except.pure]
  · intro s f z ts hs hs' h0 hc hz hz' hp
    have hts : truthyStr (some s) = true := by simpa [truthyStr] using hs'
    have hte : truthyStr (none : Option String) = false := rfl
    have htz : orDefaultStr (cur.start.bind EventTimeField.timeZone) tz = z := by
      simp [orDefaultStr, hc, hz, hz']
    refine ⟨{ summary := if truthyStr args.summary then args.summary else none,
              description := if truthyStr args.description then args.description else none,
              location := if truthyStr args.location then args.location else none,
              start := some ⟨ts, z⟩,
              «end» := none,
              attendees := match args.attendees with
                           | some l => if l.length > 0 then some l else none
                           | none => none }, ?_, rfl, rfl⟩
    simp [buildUpdatePatch, updateStartPayload, updateEndPayload, h0, hts, hte, hs, hp, htz,
      toISOInstant, bind, Except.bind, pure, Except.pure]

/-- Witness for C2: the four reference-selection scenarios at concrete inputs. -/
theorem c2_update_references_witness :
    (∃ p : UpdatePatch,
      buildUpdatePatch fbNone "UTC"
          { eventId := "e1", start := some "2025-04-01T14:00:00", «end» := some "2 hours later" }
          {} 0 = Except.ok p ∧
        p.start = some ⟨1743516000000, "UTC"⟩ ∧ p.«end» = some ⟨1743523200000, "UTC"⟩) ∧
    (∃ p : UpdatePatch,
      buildUpdatePatch fbNone "UTC" { eventId := "e1", «end» := some "2 hours later" }
          { start := some { dateTime := some "2025-04-01T14:00" } } 0 = Except.ok p ∧
        p.start = none ∧ p.«end» = some ⟨1743523200000, "UTC"⟩) ∧
    (∃ p : UpdatePatch,
      buildUpdatePatch fbNone "UTC" { eventId := "e1", «end» := some "2 hours later" } {} 0 =
          Except.ok p ∧
        p.start = none ∧ p.«end» = some ⟨7200000, "UTC"⟩) ∧
    (∃ p : UpdatePatch,
      buildUpdatePatch fbNone "UTC" { eventId := "e1", start := some "2025-04-01T14:00:00" }
          { start := some { timeZone := some "America/New_York" } } 0 = Except.ok p ∧
        p.start = some ⟨1743516000000, "America/New_York"⟩ ∧ p.«end» = none) := by
  refine ⟨?_, ?_, ?_, ?_⟩
  · exact (c2_update_references fbNone "UTC"
      { eventId := "e1", start := some "2025-04-01T14:00:00", «end» := some "2 hours later" }
      {} 0).1 "2025-04-01T14:00:00" "2 hours later" 1743516000000 1743523200000
      rfl (by decide) rfl (by decide) (by rfl) (by rfl)
  · exact (c2_update_references fbNone "UTC"
      { eventId := "e1", «end» := some "2 hours later" }
      { start := some { dateTime := some "2025-04-01T14:00" } } 0).2.1
      "2 hours later" { dateTime := some "2025-04-01T14:00" } "2025-04-01T14:00" 1743523200000
      rfl rfl (by decide) rfl rfl (by decide) (by rfl)
  · exact (c2_update_references fbNone "UTC"
      { eventId := "e1", «end» := some "2 hours later" } {} 0).2.2.1
      "2 hours later" 7200000 rfl rfl (by decide) rfl (by rfl)
  · exact (c2_update_references fbNone "UTC"
      { eventId := "e1", start := some "2025-04-01T14:00:00" }
      { start := some { timeZone := some "America/New_York" } } 0).2.2.2
      "2025-04-01T14:00:00" { timeZone := some "America/New_York" } "America/New_York"
      1743516000000 rfl (by decide) rfl rfl rfl (by decide) (by rfl)

theorem setDate_add_val (v k : Int) : setDateOf v (getDateOf v + k) = v + k * msPerDay := by
  rw [setDate_getDate_add]
  unfold jsDay timeWithinDay msPerDay
  omega

/-- C4: in the list and search handlers, an absent `timeMin` defaults to the
current instant; an absent `timeMax` is the resolved `timeMin` plus 7 days
(listing) or plus 30 days (searching); a present `timeMax` is resolved with
the resolved `timeMin` as its reference instant. -/
theorem c4_window_defaults (fb : String → JSDate) (now : Int) :
    (∀ (days : Int) (tmaxArg : Option String) (w : JSDate × JSDate),
      eventsWindow fb days none tmaxArg now = Except.ok w → w.1 = some now) ∧
    (∀ (tminArg : Option String) (w : JSDate × JSDate) (v : Int),
      eventsWindow fb 7 tminArg none now = Except.ok w → w.1 = some v →
        w.2 = some (v + 7 * msPerDay)) ∧
    (∀ (tminArg : Option String) (w : JSDate × JSDate) (v : Int),
      eventsWindow fb 30 tminArg none now = Except.ok w → w.1 = some v →
        w.2 = some (v + 30 * msPerDay)) ∧
    (∀ (days : Int) (tminArg : Option String) (s : String) (w : JSDate × JSDate),
      s ≠ "" → eventsWindow fb days tminArg (some s) now = Except.ok w →
        parseDateTime fb s (some w.1) now = Except.ok w.2) := by
  have habs : ∀ (days : Int) (tminArg : Option String) (w : JSDate × JSDate) (v : Int),
      eventsWindow fb days tminArg none now = Except.ok w → w.1 = some v →
        w.2 = some (v + days * msPerDay) := by
    intro days tminArg w v h h1
    have hn : truthyStr (none : Option String) = false := rfl
    by_cases ht : truthyStr tminArg = true
    · rcases hp : parseDateTime fb (tminArg.getD "") none now with m | u
      · simp [eventsWindow, ht, hp, bind, Except.bind] at h
      · simp [eventsWindow, ht, hp, hn, bind, Except.bind, pure, Except.pure] at h
        subst h
        simp only at h1
        subst h1
        simp [setDate_add_val]
    · simp [eventsWindow, ht, hn, bind, Except.bind, pure, Except.pure] at h
      subst h
      simp only at h1
      obtain rfl : now = v := by simpa using h1
      simp [setDate_add_val]
  refine ⟨?_, fun a b c => habs 7 a b c, fun a b c => habs 30 a b c, ?_⟩
  · intro days tmaxArg w h
    have hn : truthyStr (none : Option String) = false := rfl
    by_cases ht : truthyStr tmaxArg = true
    · rcases hp : parseDateTime fb (tmaxArg.getD "") (some (some now)) now with m | u
      · simp [eventsWindow, ht, hp, hn, bind, Except.bind, pure, Except.pure] at h
      · simp [eventsWindow, ht, hp, hn, bind, Except.bind, pure, Except.pure] at h
        subst h
        rfl
    · simp [eventsWindow, ht, hn, bind, Except.bind, pure, Except.pure] at h
      subst h
      rfl
  · intro days tminArg s w hs h
    have hts : truthyStr (some s) = true := by simpa [truthyStr] using hs
    by_cases ht : truthyStr tminArg = true
    · rcases hp : parseDateTime fb (tminArg.getD "") none now with m | u
      · simp [eventsWindow, ht, hp, bind, Except.bind] at h
      · rcases hq : parseDateTime fb s (some u) now with m2 | x
        · simp [eventsWindow, ht, hts, hp, hq, bind, Except.bind, pure, Except.pure] at h
        · simp [eventsWindow, ht, hts, hp, hq, bind, Except.bind, pure, Except.pure] at h
          subst h
          simpa using hq
    · rcases hq : parseDateTime fb s (some (some now)) now with m2 | x
      · simp [eventsWindow, ht, hts, hq, bind, Except.bind, pure, Except.pure] at h
      · simp [eventsWindow, ht, hts, hq, bind, Except.bind, pure, Except.pure] at h
        subst h
        simpa using hq

/-- Witness for C4: the spec's concrete example — `timeMin` resolved to
`2025-04-01T00:00:00` with no `timeMax` yields `timeMax = 2025-04-08T00:00:00`
for listing; plus the absent-`timeMin` default. -/
theorem c4_window_defaults_witness :
    (∃ w : JSDate × JSDate,
      eventsWindow fbNone 7 (some "2025-04-01T00:00:00") none 0 = Except.ok w ∧
        w.1 = some 1743465600000 ∧ w.2 = some 1744070400000) ∧
    (∃ w : JSDate × JSDate,
      eventsWindow fbNone 30 none none 12345 = Except.ok w ∧ w.1 = some 12345) := by
  have hmin : parseDateTime fbNone "2025-04-01T00:00:00" none 0 =
      Except.ok (some 1743465600000) := by rfl
  have hw : eventsWindow fbNone 7 (some "2025-04-01T00:00:00") none 0 =
      Except.ok (some 1743465600000, some 1744070400000) := by
    simp [eventsWindow, hmin, show truthyStr (some "2025-04-01T00:00:00") = true from rfl,
      show truthyStr (none : Option String) = false from rfl, bind, Except.bind, pure,
      Except.pure, setDate_add_val]
    norm_num [msPerDay]
  have hw2 : eventsWindow fbNone 30 none none 12345 =
      Except.ok (some 12345, some (12345 + 30 * msPerDay)) := by
    simp [eventsWindow, show truthyStr (none : Option String) = false from rfl, bind,
      Except.bind, pure, Except.pure, setDate_add_val]
  constructor
  · refine ⟨_, hw, rfl, ?_⟩
    have h2 := (c4_window_defaults fbNone 0).2.1 (some "2025-04-01T00:00:00")
      (some 1743465600000, some 1744070400000) 1743465600000 hw rfl
    rw [h2]
    norm_num [msPerDay]
  · exact ⟨_, hw2, (c4_window_defaults fbNone 12345).1 30 none _ hw2⟩

theorem stripLit_isSome (p l : List Char) : (stripLit p l).isSome = true ↔ p <+: l := by
  induction p generalizing l with
  | nil => simp [stripLit]
  | cons a ps ih =>
    cases l with
    | nil => simp [stripLit]
    | cons b ls =>
      by_cases hab : (a == b) = true
      · have : a = b := by simpa using hab
        subst this
        simp [stripLit, ih, List.cons_prefix_cons]
      · have hne : a ≠ b := by simpa using hab
        simp [stripLit, hab, List.cons_prefix_cons, hne]

theorem hasSub_iff_infix (q l : List Char) : hasSub q l = true ↔ q <:+: l := by
  induction l with
  | nil =>
    simp only [hasSub, stripLit_isSome]
    simp
  | cons c cs ih =>
    simp only [hasSub, Bool.or_eq_true, stripLit_isSome, ih]
    exact (List.infix_cons_iff).symm

/-- C7: the search handler over-fetches at most 100 candidate events within
the window, keeps exactly the events whose summary, description or location
contains the lower-cased query as a case-insensitive substring, and truncates
to the caller's `maxResults`; a stored event titled `"Team Sync"` matches the
query `"sync"`, and the reported count never exceeds `maxResults`. -/
theorem c7_search_filter (query : String) (events : List GEvent) (maxResults : Int)
    (calendarId : String) (tminI tmaxI : Int) :
    (searchListRequest calendarId tminI tmaxI).maxResults = 100 ∧
    (∀ ev : GEvent, ev ∈ searchFilterEvents query events ↔
      ev ∈ events ∧
        (jsToLower query.data <:+: jsToLower (ev.summary.getD "").data ∨
         jsToLower query.data <:+: jsToLower (ev.description.getD "").data ∨
         jsToLower query.data <:+: jsToLower (ev.location.getD "").data)) ∧
    eventMatchesQuery (jsToLower "sync".data) { summary := some "Team Sync" } = true ∧
    (0 ≤ maxResults →
      ((jsSliceTo (searchFilterEvents query events) maxResults).length : Int) ≤ maxResults) ∧
    (∀ ev : GEvent, ev ∈ jsSliceTo (searchFilterEvents query events) maxResults →
      ev ∈ searchFilterEvents query events) := by
  refine ⟨rfl, ?_, by decide, ?_, ?_⟩
  · intro ev
    simp only [searchFilterEvents, List.mem_filter, eventMatchesQuery, Bool.or_eq_true,
      hasSub_iff_infix]
    tauto
  · intro hmr
    have hlen := List.length_take_le ((if maxResults < 0 then
      ((searchFilterEvents query events).length : Int) + maxResults else maxResults).toNat)
      (searchFilterEvents query events)
    unfold jsSliceTo
    split_ifs with hneg
    · omega
    · have := List.length_take_le maxResults.toNat (searchFilterEvents query events)
      omega
  · intro ev hev
    exact List.take_subset _ _ hev

/-- Witness for C7: the "Team Sync" event, a non-matching event, and a result
bound at `maxResults = 1`. -/
theorem c7_search_filter_witness :
    ({ summary := some "Team Sync" } : GEvent) ∈
        searchFilterEvents "sync" [{ summary := some "Team Sync" }, { summary := some "Other" }] ∧
      ((jsSliceTo (searchFilterEvents "sync"
            [{ summary := some "Team Sync" }, { summary := some "Other" }]) 1).length : Int) ≤ 1 := by
  have h := c7_search_filter "sync" [{ summary := some "Team Sync" }, { summary := some "Other" }]
    1 "primary" 0 0
  constructor
  · exact (h.2.1 { summary := some "Team Sync" }).2 ⟨by simp, Or.inl (by decide)⟩
  · exact h.2.2.2.1 (by norm_num)

/-- C9: every failure inside the dispatcher — validation, time-expression
resolution, or remote-collaborator error — is caught at the dispatcher
boundary and returned as a text payload `Error: <message>` in the same
envelope shape as success, never propagated as an exception (the dispatcher
is a total function into the response envelope); an unrecognized operation
name yields `Error: Unknown tool: <name>`. -/
theorem c9_dispatcher_error_boundary {α : Type} (zod : ZodEnv α) (rt : RemoteEnv)
    (loc : LocaleEnv) (fb : String → JSDate) (tz : String) (now : Int) (name : String)
    (raw : α) :
    (∀ m : String, runTool zod rt loc fb tz now name raw = Except.error m →
      dispatchToolCall zod rt loc fb tz now name raw = mkTextResponse ("Error: " ++ m)) ∧
    (∃ s : String, dispatchToolCall zod rt loc fb tz now name raw = mkTextResponse s) ∧
    (name ∉ registeredToolNames →
      dispatchToolCall zod rt loc fb tz now name raw =
        mkTextResponse ("Error: Unknown tool: " ++ name)) := by
  refine ⟨?_, ?_, ?_⟩
  · intro m hm
    simp [dispatchToolCall, hm]
  · cases h : runTool zod rt loc fb tz now name raw with
    | ok r =>
      refine ⟨r.text, ?_⟩
      simp [dispatchToolCall, h, mkTextResponse]
    | error m =>
      refine ⟨"Error: " ++ m, ?_⟩
      simp [dispatchToolCall, h, mkTextResponse]
  · intro hn
    simp only [registeredToolNames, List.mem_cons, List.not_mem_nil, or_false, not_or] at hn
    obtain ⟨h1, h2, h3, h4, h5, h6, h7⟩ := hn
    have hrun : runTool zod rt loc fb tz now name raw =
        Except.error ("Unknown tool: " ++ name) := by
      simp [runTool, h1, h2, h3, h4, h5, h6, h7]
    simp only [dispatchToolCall, hrun]
    rw [show ("Error: " ++ ("Unknown tool: " ++ name)) = "Error: Unknown tool: " ++ name from
      (String.append_assoc "Error: " "Unknown tool: " name).symm]

/-- Witness for C9: an unknown tool name under concrete collaborators. -/
theorem c9_dispatcher_error_boundary_witness :
    dispatchToolCall zodTest rtTest locTest fbNone "UTC" 0 "frobnicate" () =
        mkTextResponse ("Error: Unknown tool: " ++ "frobnicate") ∧
      dispatchToolCall zodTest rtTest locTest fbNone "UTC" 0 "create_event" () =
        mkTextResponse ("Error: " ++ "invalid arguments") := by
  constructor
  · exact (c9_dispatcher_error_boundary zodTest rtTest locTest fbNone "UTC" 0 "frobnicate"
      ()).2.2 (by decide)
  · exact (c9_dispatcher_error_boundary zodTest rtTest locTest fbNone "UTC" 0 "create_event"
      ()).1 "invalid arguments" rfl

/-- C10: the update patch omits a summary, description or location supplied
as the empty string and an attendees list supplied empty exactly as if they
had not been supplied; the patch carries exactly the supplied truthy fields
(plus start/end when supplied) and nothing else, so unnamed stored fields are
untouched. -/
theorem c10_update_patch_frame (fb : String → JSDate) (tz : String) (args : UpdateEventArgs)
    (cur : GEvent) (now : Int) :
    buildUpdatePatch fb tz { args with summary := some "" } cur now =
        buildUpdatePatch fb tz { args with summary := none } cur now ∧
    buildUpdatePatch fb tz { args with description := some "" } cur now =
        buildUpdatePatch fb tz { args with description := none } cur now ∧
    buildUpdatePatch fb tz { args with location := some "" } cur now =
        buildUpdatePatch fb tz { args with location := none } cur now ∧
    buildUpdatePatch fb tz { args with attendees := some [] } cur now =
        buildUpdatePatch fb tz { args with attendees := none } cur now ∧
    (∀ p : UpdatePatch, buildUpdatePatch fb tz args cur now = Except.ok p →
      p.summary = (if truthyStr args.summary then args.summary else none) ∧
      p.description = (if truthyStr args.description then args.description else none) ∧
      p.location = (if truthyStr args.location then args.location else none) ∧
      p.attendees = (match args.attendees with
                     | some l => if l.length > 0 then some l else none
                     | none => none) ∧
      (args.start = none → p.start = none) ∧
      (args.«end» = none → p.«end» = none)) := by
  refine ⟨rfl, rfl, rfl, rfl, ?_⟩
  intro p hp
  unfold buildUpdatePatch at hp
  rcases hS : updateStartPayload fb tz args cur now with eS | vS <;> rw [hS] at hp
  · simp [bind, Except.bind] at hp
  rcases hE : updateEndPayload fb tz args cur now with eE | vE <;> rw [hE] at hp
  · simp [bind, Except.bind] at hp
  simp only [bind, Except.bind, pure, Except.pure, Except.ok.injEq] at hp
  subst hp
  refine ⟨rfl, rfl, rfl, rfl, ?_, ?_⟩
  · intro h0
    have : truthyStr args.start = false := by rw [h0]; rfl
    simp [updateStartPayload, this, pure, Except.pure] at hS
    simp [hS]
  · intro h0
    have : truthyStr args.«end» = false := by rw [h0]; rfl
    simp [updateEndPayload, this, pure, Except.pure] at hE
    simp [hE]

/-- Witness for C10: an update supplying an empty summary and empty attendees
produces the same patch as one not supplying them, and a patch with only a
truthy summary carries nothing else. -/
theorem c10_update_patch_frame_witness :
    buildUpdatePatch fbNone "UTC"
        { eventId := "e1", summary := some "", attendees := some [] } {} 0 =
      buildUpdatePatch fbNone "UTC" { eventId := "e1", attendees := some [] } {} 0 ∧
    (∀ p : UpdatePatch,
      buildUpdatePatch fbNone "UTC" { eventId := "e1", summary := some "T" } {} 0 =
          Except.ok p →
        p.summary = some "T" ∧ p.description = none ∧ p.location = none ∧
          p.attendees = none ∧ p.start = none ∧ p.«end» = none) := by
  constructor
  · exact (c10_update_patch_frame fbNone "UTC"
      { eventId := "e1", attendees := some [] } {} 0).1
  · intro p hp
    obtain ⟨h1, h2, h3, h4, h5, h6⟩ := (c10_update_patch_frame fbNone "UTC"
      { eventId := "e1", summary := some "T" } {} 0).2.2.2.2 p hp
    exact ⟨by simpa using h1, by simpa using h2, by simpa using h3, by simpa using h4,
      h5 rfl, h6 rfl⟩
